import Mathlib

/-!
Verification of `spherical2images/utils_images.py`.

The Python module downloads spherical (equirectangular) Mapillary images,
converts them to cubemap projection, crops the cubemap into directional
tiles, cleans up intermediates and enriches feature records with the tile
paths.  Below, the functions `cubemap_splitter`, `download_clip_img` and
`clean_files` are shallowly embedded: images become dimension/pixel
records, the filesystem becomes an explicit list of paths and directories,
Python dict mutation becomes an explicit heap of property dictionaries,
and the points where the Python code can raise (network calls, file
writes, `os.makedirs`, `os.remove`, `cv2.imread` returning `None`) are
driven by explicit oracles.
-/

namespace Spherical2Images

/-- A decoded raster image: `cv2.imread` yields an H×W array of BGR
pixels.  `pixel i j` is the pixel in row `i`, column `j` (a BGR triple of
channel values). -/
structure Img where
  height : Nat
  width : Nat
  pixel : Nat → Nat → Nat × Nat × Nat

/-- Numpy slicing `img[y0:y1, x0:x1]` (non-negative indices): rows are
clamped to `[min y0 H, min y1 H)` and columns to `[min x0 W, min x1 W)`. -/
def npSlice (img : Img) (y0 y1 x0 x1 : Nat) : Img :=
  { height := min y1 img.height - min y0 img.height
    width := min x1 img.width - min x0 img.width
    pixel := fun i j => img.pixel (min y0 img.height + i) (min x0 img.width + j) }

/-- `cv2.cvtColor(_, cv2.COLOR_BGR2RGB)`: reverse the channel order of
every pixel. -/
def cvtColorBGR2RGB (img : Img) : Img :=
  { img with pixel := fun i j =>
      ((img.pixel i j).2.2, (img.pixel i j).2.1, (img.pixel i j).1) }

/-- Split a list of characters at every occurrence of `sep`, keeping
empty chunks. -/
def splitChar (sep : Char) : List Char → List (List Char)
  | [] => [[]]
  | c :: rest =>
    if c = sep then [] :: splitChar sep rest
    else
      match splitChar sep rest with
      | [] => [[c]]
      | h :: t => (c :: h) :: t

/-- Python's `s.split(",")` (notably `"".split(",") == [""]`), as a
structurally recursive function on the string's characters. -/
def pySplit (s : String) : List String :=
  (splitChar ',' s.data).map (fun cs => String.mk cs)

/-- The `index_dict` literal of `cubemap_splitter` (utils_images.py lines
43–50): grid cell `"x,y"` to cube-face name. -/
def index_dict : List (String × String) :=
  [("1,0", "top"), ("0,1", "left"), ("1,1", "front"),
   ("2,1", "right"), ("3,1", "back"), ("1,2", "bottom")]

/-- The tile path `f"{output_images_path}/{sequence_id}/{image_id}_{face}.jpg"`. -/
def tilePath (output_images_path sequence_id image_id face : String) : String :=
  output_images_path ++ "/" ++ sequence_id ++ "/" ++ image_id ++ "_" ++ face ++ ".jpg"

/-- The pixel data written for the face at grid cell `(x, y)`
(utils_images.py lines 58–60): crop `img[y*r : y*r+size, x*r : x*r+size]`
with `r = img_width - img_height`, then convert BGR → RGB. -/
def faceContent (img : Img) (size x y : Nat) : Img :=
  cvtColorBGR2RGB
    (npSlice img (y * (img.width - img.height)) (y * (img.width - img.height) + size)
      (x * (img.width - img.height)) (x * (img.width - img.height) + size))

/-- Accumulated state of the grid scan: `status` mirrors Python's
`status_response` (`some path` for an appended path, `none` for an
appended `False`), `writes` records every tile file actually written,
with its pixel content. -/
structure SplitAcc where
  status : List (Option String)
  writes : List (String × Img)

/-- One iteration of the nested grid loop of `cubemap_splitter`
(utils_images.py lines 53–67) for cell `(x, y)`.  `writeFails p` states
that the crop/convert/open/save block for path `p` raises (the inner
`except`, line 65), in which case `False` is appended and no file is
written. -/
def splitStep (size : Nat) (sequence_id image_id output_images_path : String)
    (sides : List String) (writeFails : String → Bool) (img : Img)
    (acc : SplitAcc) (cell : Nat × Nat) : SplitAcc :=
  let index := toString cell.1 ++ "," ++ toString cell.2
  match index_dict.lookup index with
  | some face =>
    if sides.contains face then
      let chunk_img_path := tilePath output_images_path sequence_id image_id face
      if writeFails chunk_img_path then
        { acc with status := acc.status ++ [none] }
      else
        { status := acc.status ++ [some chunk_img_path]
          writes := acc.writes ++ [(chunk_img_path, faceContent img size cell.1 cell.2)] }
    else acc
  | none => acc

/-- The scan order of the nested loops `for x in range(0, 4): for y in
range(0, 3)`. -/
def allCells : List (Nat × Nat) :=
  (List.range 4).flatMap (fun x => (List.range 3).map (fun y => (x, y)))

/-- Shallow embedding of `cubemap_splitter` (utils_images.py lines
17–71).  `imread` is the result of `cv2.imread`: `none` models an
unreadable cubemap (where `img.shape` raises and the outer `except`
returns `[False] * len(cube_sides.split(","))`). -/
def cubemap_splitter (imread : Option Img) (image_clip_size : Nat)
    (sequence_id image_id output_images_path cube_sides : String)
    (writeFails : String → Bool) : SplitAcc :=
  match imread with
  | some img =>
      allCells.foldl
        (splitStep image_clip_size sequence_id image_id output_images_path
          (pySplit cube_sides) writeFails img)
        { status := [], writes := [] }
  | none =>
      { status := List.replicate ((pySplit cube_sides).length) none, writes := [] }

/-- The six named cells of the grid scan, in scan order, with their
`(x, y)` coordinates. -/
def scanCells : List (String × Nat × Nat) :=
  [("left", 0, 1), ("top", 1, 0), ("front", 1, 1),
   ("bottom", 1, 2), ("right", 2, 1), ("back", 3, 1)]

/-- The named faces met by a list of grid cells, with their coordinates. -/
def namedOf (cells : List (Nat × Nat)) : List (String × Nat × Nat) :=
  cells.filterMap (fun c =>
    (index_dict.lookup (toString c.1 ++ "," ++ toString c.2)).map (fun f => (f, c.1, c.2)))

theorem namedOf_allCells : namedOf allCells = scanCells := by decide

/-- Characterization of the grid-scan fold, for any list of cells. -/
theorem foldl_splitStep (size : Nat) (sequence_id image_id output_images_path : String)
    (sides : List String) (writeFails : String → Bool) (img : Img)
    (cells : List (Nat × Nat)) (acc : SplitAcc) :
    cells.foldl (splitStep size sequence_id image_id output_images_path sides writeFails img) acc =
      { status := acc.status ++
          ((namedOf cells).filter (fun t => sides.contains t.1)).map (fun t =>
            if writeFails (tilePath output_images_path sequence_id image_id t.1) then none
            else some (tilePath output_images_path sequence_id image_id t.1))
        writes := acc.writes ++
          ((namedOf cells).filter (fun t =>
              sides.contains t.1 && !writeFails (tilePath output_images_path sequence_id image_id t.1))).map
            (fun t => (tilePath output_images_path sequence_id image_id t.1,
              faceContent img size t.2.1 t.2.2)) } := by
  induction cells generalizing acc with
  | nil => simp [namedOf]
  | cons c cs ih =>
    rw [List.foldl_cons, ih]
    rcases hl : index_dict.lookup (toString c.1 ++ "," ++ toString c.2) with _ | face
    · simp [splitStep, hl, namedOf]
    · by_cases hc : face ∈ sides
      · by_cases hw : writeFails (tilePath output_images_path sequence_id image_id face) = true
        · simp [splitStep, hl, hc, hw, namedOf, List.filter_cons]
        · simp only [Bool.not_eq_true] at hw
          simp [splitStep, hl, hc, hw, namedOf, List.filter_cons]
      · simp [splitStep, hl, hc, namedOf, List.filter_cons]

/-- `cubemap_splitter` on a readable cubemap, in closed form. -/
theorem cubemap_splitter_some (img : Img) (size : Nat)
    (sequence_id image_id output_images_path cube_sides : String)
    (writeFails : String → Bool) :
    cubemap_splitter (some img) size sequence_id image_id output_images_path cube_sides writeFails =
      { status := (scanCells.filter (fun t => (pySplit cube_sides).contains t.1)).map (fun t =>
          if writeFails (tilePath output_images_path sequence_id image_id t.1) then none
          else some (tilePath output_images_path sequence_id image_id t.1))
        writes := (scanCells.filter (fun t =>
            (pySplit cube_sides).contains t.1 &&
              !writeFails (tilePath output_images_path sequence_id image_id t.1))).map
          (fun t => (tilePath output_images_path sequence_id image_id t.1,
            faceContent img size t.2.1 t.2.2)) } := by
  rw [cubemap_splitter, foldl_splitStep, namedOf_allCells]
  simp

/-- C3: for a cubemap of width `W`, height `H`, with `r = W - H` and clip
size `size`, a requested face mapped to grid cell `(x, y)` is written from
exactly pixel rows `[y*r, y*r+size)` and columns `[x*r, x*r+size)` of the
cubemap (after BGR→RGB channel reversal): the written tile is a
`size × size` image whose pixel `(i, j)` is source pixel
`(y*r + i, x*r + j)`. -/
theorem cubemap_splitter_crop_geometry (img : Img) (size : Nat)
    (sequence_id image_id output_images_path cube_sides : String)
    (writeFails : String → Bool) (face : String) (x y : Nat)
    (hcell : (face, x, y) ∈ scanCells)
    (hreq : (pySplit cube_sides).contains face = true)
    (hok : writeFails (tilePath output_images_path sequence_id image_id face) = false)
    (hy : y * (img.width - img.height) + size ≤ img.height)
    (hx : x * (img.width - img.height) + size ≤ img.width) :
    ∃ c : Img,
      (tilePath output_images_path sequence_id image_id face, c) ∈
        (cubemap_splitter (some img) size sequence_id image_id output_images_path
          cube_sides writeFails).writes ∧
      c.height = size ∧ c.width = size ∧
      ∀ i j : Nat,
        c.pixel i j =
          ((img.pixel (y * (img.width - img.height) + i) (x * (img.width - img.height) + j)).2.2,
           (img.pixel (y * (img.width - img.height) + i) (x * (img.width - img.height) + j)).2.1,
           (img.pixel (y * (img.width - img.height) + i) (x * (img.width - img.height) + j)).1) := by
  refine ⟨faceContent img size x y, ?_, ?_, ?_, ?_⟩
  · rw [cubemap_splitter_some]
    have hmem : (face, x, y) ∈ scanCells.filter (fun t =>
        (pySplit cube_sides).contains t.1 &&
          !writeFails (tilePath output_images_path sequence_id image_id t.1)) := by
      refine List.mem_filter.mpr ⟨hcell, ?_⟩
      show ((pySplit cube_sides).contains face &&
        !writeFails (tilePath output_images_path sequence_id image_id face)) = true
      rw [hreq, hok]
      rfl
    exact List.mem_map_of_mem _ hmem
  · have hy0 : y * (img.width - img.height) ≤ img.height := le_trans (Nat.le_add_right _ _) hy
    simp [faceContent, cvtColorBGR2RGB, npSlice, Nat.min_eq_left hy, Nat.min_eq_left hy0]
  · have hx0 : x * (img.width - img.height) ≤ img.width := le_trans (Nat.le_add_right _ _) hx
    simp [faceContent, cvtColorBGR2RGB, npSlice, Nat.min_eq_left hx, Nat.min_eq_left hx0]
  · intro i j
    have hy0 : y * (img.width - img.height) ≤ img.height := le_trans (Nat.le_add_right _ _) hy
    have hx0 : x * (img.width - img.height) ≤ img.width := le_trans (Nat.le_add_right _ _) hx
    simp [faceContent, cvtColorBGR2RGB, npSlice, Nat.min_eq_left hy0, Nat.min_eq_left hx0]

/-- A concrete 4000×3000 cubemap with a distinguishing pixel function. -/
def img4000 : Img :=
  { height := 3000, width := 4000, pixel := fun i j => (i, j, i + j) }

/-- Witness for C3, at the spec's own example: a 4000×3000 cubemap
(`r = 1000`), clip size 1000, `cube_sides = "front,back"`: the front tile
is cut from rows/cols `[1000, 2000) × [1000, 2000)` and the back tile
from `[1000, 2000) × [3000, 4000)`. -/
theorem cubemap_splitter_crop_geometry_witness :
    (∃ c : Img,
      (tilePath "out" "seq" "id7" "front", c) ∈
        (cubemap_splitter (some img4000) 1000 "seq" "id7" "out" "front,back"
          (fun _ => false)).writes ∧
      c.height = 1000 ∧ c.width = 1000 ∧
      ∀ i j : Nat,
        c.pixel i j =
          ((img4000.pixel (1 * (img4000.width - img4000.height) + i)
              (1 * (img4000.width - img4000.height) + j)).2.2,
           (img4000.pixel (1 * (img4000.width - img4000.height) + i)
              (1 * (img4000.width - img4000.height) + j)).2.1,
           (img4000.pixel (1 * (img4000.width - img4000.height) + i)
              (1 * (img4000.width - img4000.height) + j)).1)) ∧
    (∃ c : Img,
      (tilePath "out" "seq" "id7" "back", c) ∈
        (cubemap_splitter (some img4000) 1000 "seq" "id7" "out" "front,back"
          (fun _ => false)).writes ∧
      c.height = 1000 ∧ c.width = 1000 ∧
      ∀ i j : Nat,
        c.pixel i j =
          ((img4000.pixel (1 * (img4000.width - img4000.height) + i)
              (3 * (img4000.width - img4000.height) + j)).2.2,
           (img4000.pixel (1 * (img4000.width - img4000.height) + i)
              (3 * (img4000.width - img4000.height) + j)).2.1,
           (img4000.pixel (1 * (img4000.width - img4000.height) + i)
              (3 * (img4000.width - img4000.height) + j)).1)) := by
  constructor
  · exact cubemap_splitter_crop_geometry img4000 1000 "seq" "id7" "out" "front,back"
      (fun _ => false) "front" 1 1 (by decide) (by decide) rfl (by decide) (by decide)
  · exact cubemap_splitter_crop_geometry img4000 1000 "seq" "id7" "out" "front,back"
      (fun _ => false) "back" 3 1 (by decide) (by decide) rfl (by decide) (by decide)

/-- C4: the named-face mapping over the 4×3 grid scan covers exactly the
six cells `(1,0)=top, (0,1)=left, (1,1)=front, (2,1)=right, (3,1)=back,
(1,2)=bottom`; and every file ever written by `cubemap_splitter` is a
tile of one of those six faces that is also in the requested set — a cell
outside the named set, or a named cell whose face is not requested, never
produces a file. -/
theorem cubemap_splitter_face_selection (imread : Option Img) (size : Nat)
    (sequence_id image_id output_images_path cube_sides : String)
    (writeFails : String → Bool) :
    namedOf allCells = scanCells ∧
    ∀ p ∈ ((cubemap_splitter imread size sequence_id image_id output_images_path
        cube_sides writeFails).writes).map Prod.fst,
      ∃ t ∈ scanCells, (pySplit cube_sides).contains t.1 = true ∧
        p = tilePath output_images_path sequence_id image_id t.1 := by
  refine ⟨namedOf_allCells, ?_⟩
  cases imread with
  | none => simp [cubemap_splitter]
  | some img =>
    rw [cubemap_splitter_some]
    intro p hp
    simp only [List.map_map, List.mem_map, Function.comp] at hp
    obtain ⟨t, ht, rfl⟩ := hp
    obtain ⟨hts, htc⟩ := List.mem_filter.mp ht
    rw [Bool.and_eq_true] at htc
    exact ⟨t, hts, htc.1, rfl⟩

/-- Witness for C4: with only `"front"` requested, the single written
file is the front tile, which belongs to a named cell whose face is
requested. -/
theorem cubemap_splitter_face_selection_witness :
    ∃ t ∈ scanCells, (pySplit "front").contains t.1 = true ∧
      tilePath "out" "seq" "id7" "front" = tilePath "out" "seq" "id7" t.1 := by
  refine (cubemap_splitter_face_selection (some img4000) 1000 "seq" "id7" "out" "front"
    (fun _ => false)).2 (tilePath "out" "seq" "id7" "front") ?_
  rw [cubemap_splitter_some]
  decide

/-- C5: on a readable cubemap, per-face failures are isolated: the status
list is exactly one entry per requested named face in grid-scan order,
`none` (Python `False`) precisely for the faces whose crop/convert/write
raised, and the written tile path for every face that succeeded. -/
theorem cubemap_splitter_failure_isolation (img : Img) (size : Nat)
    (sequence_id image_id output_images_path cube_sides : String)
    (writeFails : String → Bool) :
    (cubemap_splitter (some img) size sequence_id image_id output_images_path
        cube_sides writeFails).status =
      (scanCells.filter (fun t => (pySplit cube_sides).contains t.1)).map (fun t =>
        if writeFails (tilePath output_images_path sequence_id image_id t.1) then none
        else some (tilePath output_images_path sequence_id image_id t.1)) := by
  rw [cubemap_splitter_some]

/-- C6: when the cubemap image cannot be read (`cv2.imread` yields no
image and `img.shape` raises), `cubemap_splitter` returns one failure
marker per requested face name and writes no file. -/
theorem cubemap_splitter_total_failure (image_clip_size : Nat)
    (sequence_id image_id output_images_path cube_sides : String)
    (writeFails : String → Bool) :
    (cubemap_splitter none image_clip_size sequence_id image_id output_images_path
        cube_sides writeFails).status =
      List.replicate ((pySplit cube_sides).length) none ∧
    (cubemap_splitter none image_clip_size sequence_id image_id output_images_path
        cube_sides writeFails).writes = [] :=
  ⟨rfl, rfl⟩

/-- C9: a requested face name that is not one of the six valid names gets
no status entry at all (neither a path nor a failure marker), so on a
readable cubemap the returned status list is strictly shorter than the
number of requested names. -/
theorem cubemap_splitter_invalid_side_dropped (img : Img) (size : Nat)
    (sequence_id image_id output_images_path cube_sides : String)
    (writeFails : String → Bool) (bad : String)
    (hbad : bad ∈ pySplit cube_sides)
    (hnotvalid : bad ∉ scanCells.map (fun t => t.1)) :
    (cubemap_splitter (some img) size sequence_id image_id output_images_path
        cube_sides writeFails).status.length < (pySplit cube_sides).length := by
  rw [cubemap_splitter_some]
  simp only [List.length_map]
  set sides := pySplit cube_sides with hsides
  have hmapnodup : (scanCells.map (fun t => t.1)).Nodup := by decide
  have hsub : ((scanCells.filter (fun t => sides.contains t.1)).map (fun t => t.1)) ⊆
      sides.dedup.erase bad := by
    intro f hf
    obtain ⟨t, ht, rfl⟩ := List.mem_map.mp hf
    obtain ⟨hts, htc⟩ := List.mem_filter.mp ht
    have hfs : t.1 ∈ sides := by
      simpa using htc
    have hfb : t.1 ≠ bad := by
      intro h
      exact hnotvalid (h ▸ List.mem_map_of_mem (fun t => t.1) hts)
    exact (List.mem_erase_of_ne hfb).mpr (List.mem_dedup.mpr hfs)
  have hnodup : ((scanCells.filter (fun t => sides.contains t.1)).map (fun t => t.1)).Nodup :=
    List.Nodup.sublist (List.Sublist.map _ (List.filter_sublist _)) hmapnodup
  have hlen : ((scanCells.filter (fun t => sides.contains t.1)).map (fun t => t.1)).length ≤
      (sides.dedup.erase bad).length :=
    (List.subperm_of_subset hnodup hsub).length_le
  rw [List.length_map] at hlen
  have hbd : bad ∈ sides.dedup := List.mem_dedup.mpr hbad
  have h1 : (sides.dedup.erase bad).length < sides.dedup.length := by
    rw [List.length_erase_of_mem hbd]
    have : 0 < sides.dedup.length := List.length_pos.mpr (List.ne_nil_of_mem hbd)
    omega
  have h2 : sides.dedup.length ≤ sides.length := (List.dedup_sublist sides).length_le
  omega

/-- Witness for C9: requesting `"front,fake"` on a readable cubemap
yields one status entry for two requested names. -/
theorem cubemap_splitter_invalid_side_dropped_witness :
    (cubemap_splitter (some img4000) 1000 "seq" "id7" "out" "front,fake"
        (fun _ => false)).status.length < (pySplit "front,fake").length :=
  cubemap_splitter_invalid_side_dropped img4000 1000 "seq" "id7" "out" "front,fake"
    (fun _ => false) "fake" (by decide) (by decide)

/-- Whether path `f` matches the glob pattern `pre ++ "*.jpg"` used by
`glob.glob(f"{chumk_image_path}*.jpg")` in `clean_files`: `f` is `pre`,
then any (possibly empty) run of non-separator characters, then `".jpg"`. -/
def globStarJpg (pre f : String) : Bool :=
  pre.data.isPrefixOf f.data && ".jpg".data.isSuffixOf f.data &&
    decide (pre.data.length + 4 ≤ f.data.length) &&
    !((f.data.drop pre.data.length).take (f.data.length - pre.data.length - 4)).contains '/'

/-- Shallow embedding of `clean_files` (utils_images.py lines 143–158):
`files` is the directory's contents; the glob selects the `.jpg` files
whose name starts with `{image_folder_path}/{image_id}`; every match not
among the expected tile names is removed, each removal attempted
independently.  `removeFails p` states that `os.remove p` raises (the
error is printed and the loop continues).  Returns the surviving files. -/
def clean_files (image_folder_path image_id cube_sides : String)
    (files : List String) (removeFails : String → Bool) : List String :=
  let chumk_image_path := image_folder_path ++ "/" ++ image_id
  let images_generate := (pySplit cube_sides).map (fun i => chumk_image_path ++ "_" ++ i ++ ".jpg")
  let images_remove := (files.filter (fun f => globStarJpg chumk_image_path f)).filter
    (fun f => decide (f ∉ images_generate))
  files.filter (fun f => decide (¬(f ∈ images_remove ∧ removeFails f = false)))

/-- Membership in the result of `clean_files`: a file survives unless it
matches the glob, is not an expected tile, and its removal did not fail. -/
theorem clean_files_mem (image_folder_path image_id cube_sides : String)
    (files : List String) (removeFails : String → Bool) (f : String) :
    f ∈ clean_files image_folder_path image_id cube_sides files removeFails ↔
      f ∈ files ∧ ¬(globStarJpg (image_folder_path ++ "/" ++ image_id) f = true ∧
        f ∉ (pySplit cube_sides).map
          (fun i => image_folder_path ++ "/" ++ image_id ++ "_" ++ i ++ ".jpg") ∧
        removeFails f = false) := by
  unfold clean_files
  rw [List.mem_filter]
  simp only [decide_eq_true_eq, List.mem_filter]
  constructor
  · rintro ⟨hf, h⟩
    refine ⟨hf, ?_⟩
    rintro ⟨hg, hgen, hrf⟩
    exact h ⟨⟨⟨hf, hg⟩, hgen⟩, hrf⟩
  · rintro ⟨hf, h⟩
    refine ⟨hf, ?_⟩
    rintro ⟨⟨⟨-, hg⟩, hgen⟩, hrf⟩
    exact h ⟨hg, hgen, hrf⟩

/-- A path of the form `pre ++ mid ++ ".jpg"` with no `/` in `mid`
matches the glob pattern `pre ++ "*.jpg"`. -/
theorem globStarJpg_tile (pre mid : String) (hmid : mid.data.contains '/' = false) :
    globStarJpg pre (pre ++ mid ++ ".jpg") = true := by
  have hdata : (pre ++ mid ++ ".jpg").data = pre.data ++ (mid.data ++ ".jpg".data) := by
    simp [String.data_append]
  simp only [globStarJpg, hdata, Bool.and_eq_true, decide_eq_true_eq]
  have h4 : (".jpg".data).length = 4 := rfl
  have hlen : (pre.data ++ (mid.data ++ ".jpg".data)).length =
      pre.data.length + mid.data.length + 4 := by
    rw [List.length_append, List.length_append, h4]
    omega
  refine ⟨⟨⟨?_, ?_⟩, ?_⟩, ?_⟩
  · exact List.isPrefixOf_iff_prefix.mpr (List.prefix_append _ _)
  · exact List.isSuffixOf_iff_suffix.mpr
      ((List.suffix_append _ _).trans (List.suffix_append _ _))
  · rw [hlen]; omega
  · rw [List.drop_left, hlen]
    have hm : pre.data.length + mid.data.length + 4 - pre.data.length - 4 =
        mid.data.length := by omega
    rw [hm, List.take_left' rfl]
    simp only [Bool.not_eq_true']
    exact hmid

/-- C7: with requested faces `front,back`, after `clean_files` the
directory's files matching the image id's glob are exactly
`{image_id}_front.jpg` and `{image_id}_back.jpg` (assuming both tiles
were written and no removal raised); and a removal failure on one file
never prevents the removal of another file. -/
theorem clean_files_exactness (image_folder_path image_id : String)
    (files : List String) (removeFails : String → Bool)
    (hfront : (image_folder_path ++ "/" ++ image_id ++ "_front.jpg") ∈ files)
    (hback : (image_folder_path ++ "/" ++ image_id ++ "_back.jpg") ∈ files)
    (hnofail : ∀ f, removeFails f = false) :
    (∀ f : String,
      (f ∈ clean_files image_folder_path image_id "front,back" files removeFails ∧
        globStarJpg (image_folder_path ++ "/" ++ image_id) f = true) ↔
      (f = image_folder_path ++ "/" ++ image_id ++ "_front.jpg" ∨
       f = image_folder_path ++ "/" ++ image_id ++ "_back.jpg")) ∧
    (∀ (rf : String → Bool) (g : String), g ∈ files →
      globStarJpg (image_folder_path ++ "/" ++ image_id) g = true →
      g ∉ (pySplit "front,back").map
        (fun i => image_folder_path ++ "/" ++ image_id ++ "_" ++ i ++ ".jpg") →
      rf g = false →
      g ∉ clean_files image_folder_path image_id "front,back" files rf) := by
  have hsplit : pySplit "front,back" = ["front", "back"] := by decide
  constructor
  · intro f
    constructor
    · rintro ⟨hmem, hg⟩
      obtain ⟨hf, hno⟩ := (clean_files_mem _ _ _ _ _ f).mp hmem
      by_cases hgen : f ∈ (pySplit "front,back").map
          (fun i => image_folder_path ++ "/" ++ image_id ++ "_" ++ i ++ ".jpg")
      · rw [hsplit] at hgen
        simpa [String.append_assoc] using hgen
      · exact absurd ⟨hg, hgen, hnofail f⟩ hno
    · intro hf
      have hgen : f ∈ (pySplit "front,back").map
          (fun i => image_folder_path ++ "/" ++ image_id ++ "_" ++ i ++ ".jpg") := by
        rw [hsplit]
        simpa [String.append_assoc] using hf
      have hmemf : f ∈ files := by
        rcases hf with rfl | rfl
        · exact hfront
        · exact hback
      refine ⟨(clean_files_mem _ _ _ _ _ f).mpr ⟨hmemf, ?_⟩, ?_⟩
      · rintro ⟨-, hnot, -⟩
        exact hnot hgen
      · rcases hf with rfl | rfl
        · have : (image_folder_path ++ "/" ++ image_id) ++ "_front" ++ ".jpg" =
              image_folder_path ++ "/" ++ image_id ++ "_front.jpg" := by
            simp [String.append_assoc]
          rw [← this]
          exact globStarJpg_tile _ "_front" (by decide)
        · have : (image_folder_path ++ "/" ++ image_id) ++ "_back" ++ ".jpg" =
              image_folder_path ++ "/" ++ image_id ++ "_back.jpg" := by
            simp [String.append_assoc]
          rw [← this]
          exact globStarJpg_tile _ "_back" (by decide)
  · intro rf g hgfiles hg hgen hrf hmem
    obtain ⟨-, hno⟩ := (clean_files_mem _ _ _ _ _ g).mp hmem
    exact hno ⟨hg, hgen, hrf⟩

/-- Witness for C7 at a concrete directory: only the front and back
tiles of image `12` survive among its glob matches; the equirectangular
source, the cubemap intermediate and a stray `left` tile are removed. -/
theorem clean_files_exactness_witness :
    (∀ f : String,
      (f ∈ clean_files "d" "12" "front,back"
          ["d/12_front.jpg", "d/12_back.jpg", "d/12.jpg", "d/12_cubemap.jpg",
           "d/12_left.jpg", "d/readme.txt"] (fun _ => false) ∧
        globStarJpg ("d" ++ "/" ++ "12") f = true) ↔
      (f = "d" ++ "/" ++ "12" ++ "_front.jpg" ∨ f = "d" ++ "/" ++ "12" ++ "_back.jpg")) ∧
    (∀ (rf : String → Bool) (g : String),
      g ∈ ["d/12_front.jpg", "d/12_back.jpg", "d/12.jpg", "d/12_cubemap.jpg",
           "d/12_left.jpg", "d/readme.txt"] →
      globStarJpg ("d" ++ "/" ++ "12") g = true →
      g ∉ (pySplit "front,back").map (fun i => "d" ++ "/" ++ "12" ++ "_" ++ i ++ ".jpg") →
      rf g = false →
      g ∉ clean_files "d" "12" "front,back"
          ["d/12_front.jpg", "d/12_back.jpg", "d/12.jpg", "d/12_cubemap.jpg",
           "d/12_left.jpg", "d/readme.txt"] rf) :=
  clean_files_exactness "d" "12"
    ["d/12_front.jpg", "d/12_back.jpg", "d/12.jpg", "d/12_cubemap.jpg",
     "d/12_left.jpg", "d/readme.txt"] (fun _ => false)
    (by decide) (by decide) (fun _ => rfl)

/-- C10: the cleaner's deletion scope is a string-prefix glob, not an
exact image-id match: a file survives `clean_files` iff it was present
and not (matching `{image_id}*.jpg`, outside the expected tile set, with
its removal succeeding); in particular a tile of image id `123` is
deleted when cleaning image id `12`, while a non-matching `.jpg` and a
non-`.jpg` file are untouched. -/
theorem clean_files_prefix_scope (image_folder_path image_id cube_sides : String)
    (files : List String) (removeFails : String → Bool) :
    (∀ f : String,
      f ∈ clean_files image_folder_path image_id cube_sides files removeFails ↔
        f ∈ files ∧ ¬(globStarJpg (image_folder_path ++ "/" ++ image_id) f = true ∧
          f ∉ (pySplit cube_sides).map
            (fun i => image_folder_path ++ "/" ++ image_id ++ "_" ++ i ++ ".jpg") ∧
          removeFails f = false)) ∧
    "d/123_front.jpg" ∉ clean_files "d" "12" "front"
      ["d/12_front.jpg", "d/123_front.jpg", "d/other.jpg", "d/12_notes.txt"] (fun _ => false) ∧
    "d/12_front.jpg" ∈ clean_files "d" "12" "front"
      ["d/12_front.jpg", "d/123_front.jpg", "d/other.jpg", "d/12_notes.txt"] (fun _ => false) ∧
    "d/other.jpg" ∈ clean_files "d" "12" "front"
      ["d/12_front.jpg", "d/123_front.jpg", "d/other.jpg", "d/12_notes.txt"] (fun _ => false) ∧
    "d/12_notes.txt" ∈ clean_files "d" "12" "front"
      ["d/12_front.jpg", "d/123_front.jpg", "d/other.jpg", "d/12_notes.txt"] (fun _ => false) :=
  ⟨clean_files_mem image_folder_path image_id cube_sides files removeFails,
   by decide, by decide, by decide, by decide⟩

/-- A Python dict of string properties, as an ordered association list
(first binding wins on lookup). -/
abbrev Props := List (String × String)

/-- Python dict assignment `d[k] = v`: overwrite in place if the key
exists, else append. -/
def Props.set (p : Props) (k v : String) : Props :=
  if p.any (fun kv => kv.1 = k) then
    p.map (fun kv => if kv.1 = k then (k, v) else kv)
  else p ++ [(k, v)]

/-- A feature record: its mutable `properties` dict lives in the heap at
`propsAddr`; all its other fields (`type`, `geometry`, …) are the opaque
immutable `rest`. -/
structure Feature where
  propsAddr : Nat
  rest : String
deriving DecidableEq

/-- A heap of property dicts: `cells` maps addresses to dict values
(latest binding first), `next` is the next fresh address. -/
structure Heap where
  cells : List (Nat × Props)
  next : Nat
deriving DecidableEq

/-- Read the dict at address `a` (missing addresses read as `[]`). -/
def Heap.get (h : Heap) (a : Nat) : Props :=
  (h.cells.lookup a).getD []

/-- Overwrite the dict at address `a`. -/
def Heap.set (h : Heap) (a : Nat) (p : Props) : Heap :=
  { h with cells := (a, p) :: h.cells }

/-- Allocate a fresh dict. -/
def Heap.alloc (h : Heap) (p : Props) : Nat × Heap :=
  (h.next, { cells := (h.next, p) :: h.cells, next := h.next + 1 })

/-- `copy.deepcopy(feature)`: a new record whose `properties` dict is a
fresh heap cell holding a copy of the original's dict. -/
def deepcopyFeature (h : Heap) (f : Feature) : Feature × Heap :=
  let ah := h.alloc (h.get f.propsAddr)
  ({ f with propsAddr := ah.1 }, ah.2)

/-- One iteration of the record-synthesis loops of `download_clip_img`
(utils_images.py lines 102–105 and 132–136):
`new_feature = deepcopy(feature)`, then
`new_feature["properties"]["image_path"] = p`, then
`results.append(deepcopy(new_feature))`. -/
def addRecord (feature : Feature) (acc : List Feature × Heap) (p : String) :
    List Feature × Heap :=
  let nfh := deepcopyFeature acc.2 feature
  let h2 := nfh.2.set nfh.1.propsAddr ((nfh.2.get nfh.1.propsAddr).set "image_path" p)
  let nfh2 := deepcopyFeature h2 nfh.1
  (acc.1 ++ [nfh2.1], nfh2.2)

/-- Synthesize one derived record per path in `paths`. -/
def buildRecords (feature : Feature) (paths : List String) (h : Heap) :
    List Feature × Heap :=
  paths.foldl (addRecord feature) ([], h)

/-- The failure oracle for one orchestration run: at which points would
the Python runtime raise, and what would the external world answer.
`thumbUrl` is the outcome of the metadata request plus JSON field access
(an exception, or the image URL); `fetchOk` states whether downloading
and persisting the equirectangular image succeeds; `cubemapRead` is what
`cv2.imread` later finds at the cubemap path (`none` when `convert360`
produced nothing readable). -/
structure Oracle where
  makedirsFails : Bool
  thumbUrl : Except String String
  fetchOk : Bool
  cubemapRead : Option Img
  writeFails : String → Bool
  removeFails : String → Bool

/-- The mutable world: files and directories on disk, the heap of
feature-property dicts, and counters of network requests and external
process invocations. -/
structure World where
  files : List String
  dirs : List String
  heap : Heap
  net : Nat
  procs : Nat
deriving DecidableEq

/-- The `try:` body of `download_clip_img` (utils_images.py lines
108–136): metadata request, image download, `convert360` invocation,
`cubemap_splitter`, `clean_files`, record synthesis.  Every failure is
caught by the `except` (line 137), which prints and falls through to
`return results` — so this function never returns an error. -/
def slowPath (feature : Feature) (output_images_path : String) (image_clip_size : Nat)
    (cube_sides : String) (o : Oracle)
    (sequence_id image_folder_path image_id : String) (w : World) :
    Except String (List Feature) × World :=
  let w1 : World := { w with net := w.net + 1 }
  match o.thumbUrl with
  | Except.error _ => (Except.ok [], w1)
  | Except.ok _image_url =>
    let w2 : World := { w1 with net := w1.net + 1 }
    if !o.fetchOk then (Except.ok [], w2)
    else
      let img_file_equirectangular := image_folder_path ++ "/" ++ image_id ++ ".jpg"
      let img_file_cubemap := image_folder_path ++ "/" ++ image_id ++ "_cubemap.jpg"
      let w3 : World := { w2 with files := img_file_equirectangular :: w2.files }
      let cubemapFiles := if o.cubemapRead.isSome then img_file_cubemap :: w3.files else w3.files
      let w4 : World := { w3 with procs := w3.procs + 1, files := cubemapFiles }
      let res := cubemap_splitter o.cubemapRead image_clip_size sequence_id image_id
        output_images_path cube_sides o.writeFails
      let w5 : World := { w4 with files := res.writes.map Prod.fst ++ w4.files }
      let w6 : World := { w5 with
        files := clean_files image_folder_path image_id cube_sides w5.files o.removeFails }
      let bh := buildRecords feature (res.status.filterMap (fun s =>
        s.bind (fun p => if p.isEmpty then none else some p))) w6.heap
      (Except.ok bh.1, { w6 with heap := bh.2 })

/-- Steps of `download_clip_img` after the directory handling: the
`image_id` property access, the fast-path existence check (lines
101–106) and otherwise the guarded slow path. -/
def orchestrate (feature : Feature) (output_images_path : String) (image_clip_size : Nat)
    (cube_sides : String) (o : Oracle)
    (sequence_id image_folder_path : String) (w : World) :
    Except String (List Feature) × World :=
  match (w.heap.get feature.propsAddr).lookup "id" with
  | none => (Except.error "KeyError: id", w)
  | some image_id =>
    let sides := pySplit cube_sides
    if sides.all (fun i =>
        w.files.contains (tilePath output_images_path sequence_id image_id i)) then
      let bh := buildRecords feature
        (sides.map (fun i => tilePath output_images_path sequence_id image_id i)) w.heap
      (Except.ok bh.1, { w with heap := bh.2 })
    else
      slowPath feature output_images_path image_clip_size cube_sides o
        sequence_id image_folder_path image_id w

/-- Shallow embedding of `download_clip_img` (utils_images.py lines
74–140).  The property accesses and the `os.makedirs` call (lines 85–88)
happen before the `try:` block, so an exception there — modelled as the
`Except.error` results — propagates to the caller. -/
def download_clip_img (feature : Feature) (output_images_path : String)
    (image_clip_size : Nat) (cube_sides : String) (o : Oracle) (w : World) :
    Except String (List Feature) × World :=
  match (w.heap.get feature.propsAddr).lookup "sequence_id" with
  | none => (Except.error "KeyError: sequence_id", w)
  | some sequence_id =>
    let image_folder_path := output_images_path ++ "/" ++ sequence_id
    if w.dirs.contains image_folder_path then
      orchestrate feature output_images_path image_clip_size cube_sides o
        sequence_id image_folder_path w
    else if o.makedirsFails then
      (Except.error "OSError: makedirs", w)
    else
      orchestrate feature output_images_path image_clip_size cube_sides o
        sequence_id image_folder_path { w with dirs := image_folder_path :: w.dirs }

theorem Heap.get_mk_cons_self (k : Nat) (v : Props) (cs : List (Nat × Props)) (nx : Nat) :
    (Heap.mk ((k, v) :: cs) nx).get k = v := by
  simp [Heap.get, List.lookup]

theorem Heap.get_mk_cons_ne (k : Nat) (v : Props) (cs : List (Nat × Props)) (nx a : Nat)
    (hne : a ≠ k) : (Heap.mk ((k, v) :: cs) nx).get a = (Heap.mk cs nx).get a := by
  simp [Heap.get, List.lookup, beq_eq_false_iff_ne.mpr hne]

theorem Heap.get_irrel_next (cs : List (Nat × Props)) (nx nx' a : Nat) :
    (Heap.mk cs nx).get a = (Heap.mk cs nx').get a := rfl

/-- `addRecord` in closed form: the new record's dict lives at the fresh
address `h.next + 1` and holds the source dict with `image_path` set. -/
theorem addRecord_eq (feature : Feature) (rs : List Feature) (h : Heap) (p : String) :
    addRecord feature (rs, h) p =
      (rs ++ [{ propsAddr := h.next + 1, rest := feature.rest }],
       Heap.mk ((h.next + 1, (h.get feature.propsAddr).set "image_path" p) ::
           (h.next, (h.get feature.propsAddr).set "image_path" p) ::
           (h.next, h.get feature.propsAddr) :: h.cells)
         (h.next + 2)) := by
  simp [addRecord, deepcopyFeature, Heap.alloc, Heap.set, Heap.get, List.lookup]

/-- The effect of one `addRecord` step on the heap and record list. -/
theorem addRecord_heap (feature : Feature) (rs : List Feature) (h : Heap) (p : String) :
    (addRecord feature (rs, h) p).2.next = h.next + 2 ∧
    (∀ a, a < h.next → (addRecord feature (rs, h) p).2.get a = h.get a) ∧
    (addRecord feature (rs, h) p).2.get (h.next + 1) =
      (h.get feature.propsAddr).set "image_path" p ∧
    (addRecord feature (rs, h) p).1 =
      rs ++ [{ propsAddr := h.next + 1, rest := feature.rest }] := by
  rw [addRecord_eq]
  refine ⟨rfl, ?_, ?_, rfl⟩
  · intro a ha
    have hne1 : (a == h.next + 1) = false := beq_eq_false_iff_ne.mpr (by omega)
    have hne2 : (a == h.next) = false := beq_eq_false_iff_ne.mpr (by omega)
    simp [Heap.get, List.lookup, hne1, hne2]
  · simp [Heap.get, List.lookup]

/-- The record-synthesis fold, characterized: it only allocates fresh
addresses (every dict below the starting `next` is untouched), appends
one record per path, and each new record's dict is the source dict plus
`image_path` mapped to the corresponding path. -/
theorem buildRecords_go (feature : Feature) (ps : List String) :
    ∀ (rs : List Feature) (h : Heap), feature.propsAddr < h.next →
    ∃ news : List Feature,
      (ps.foldl (addRecord feature) (rs, h)).1 = rs ++ news ∧
      news.length = ps.length ∧
      h.next ≤ (ps.foldl (addRecord feature) (rs, h)).2.next ∧
      (∀ a, a < h.next → (ps.foldl (addRecord feature) (rs, h)).2.get a = h.get a) ∧
      (∀ q ∈ news.zip ps,
        q.1.rest = feature.rest ∧
        (ps.foldl (addRecord feature) (rs, h)).2.get q.1.propsAddr =
          (h.get feature.propsAddr).set "image_path" q.2) ∧
      (∀ r ∈ news, r.rest = feature.rest ∧
        ∃ p, (ps.foldl (addRecord feature) (rs, h)).2.get r.propsAddr =
          (h.get feature.propsAddr).set "image_path" p) := by
  induction ps with
  | nil =>
    intro rs h hf
    exact ⟨[], by simp, rfl, Nat.le_refl _, fun a _ => rfl, by simp, by simp⟩
  | cons p ps ih =>
    intro rs h hf
    rw [List.foldl_cons]
    obtain ⟨hAnext, hApres, hAnew, hAfst⟩ := addRecord_heap feature rs h p
    rcases hA : addRecord feature (rs, h) p with ⟨rs1, h1⟩
    rw [hA] at hAnext hApres hAnew hAfst
    dsimp only at hAnext hApres hAnew hAfst
    obtain ⟨news, hsplit, hlen, hle, hpres, hzip, hmem⟩ := ih rs1 h1 (by omega)
    have hsrc1 : h1.get feature.propsAddr = h.get feature.propsAddr := hApres _ (by omega)
    refine ⟨{ propsAddr := h.next + 1, rest := feature.rest } :: news, ?_, ?_, ?_, ?_, ?_, ?_⟩
    · rw [hsplit, hAfst, List.append_assoc]
      rfl
    · simp [hlen]
    · omega
    · intro a ha
      rw [hpres a (by omega), hApres a (by omega)]
    · intro q hq
      rw [List.zip_cons_cons] at hq
      rcases List.mem_cons.mp hq with hq1 | hq2
      · rw [hq1]
        refine ⟨rfl, ?_⟩
        show (List.foldl (addRecord feature) (rs1, h1) ps).2.get (h.next + 1) =
          (h.get feature.propsAddr).set "image_path" p
        rw [hpres (h.next + 1) (by omega), hAnew]
      · obtain ⟨hrest, hget⟩ := hzip q hq2
        exact ⟨hrest, by rw [hget, hsrc1]⟩
    · intro r hr
      rcases List.mem_cons.mp hr with hr1 | hr2
      · rw [hr1]
        refine ⟨rfl, p, ?_⟩
        show (List.foldl (addRecord feature) (rs1, h1) ps).2.get (h.next + 1) =
          (h.get feature.propsAddr).set "image_path" p
        rw [hpres (h.next + 1) (by omega), hAnew]
      · obtain ⟨hrest, p', hget⟩ := hmem r hr2
        exact ⟨hrest, p', by rw [hget, hsrc1]⟩

/-- `buildRecords` starting from an empty record list, characterized. -/
theorem buildRecords_spec (feature : Feature) (ps : List String) (h : Heap)
    (hf : feature.propsAddr < h.next) :
    (buildRecords feature ps h).1.length = ps.length ∧
    (∀ a, a < h.next → (buildRecords feature ps h).2.get a = h.get a) ∧
    (∀ q ∈ (buildRecords feature ps h).1.zip ps,
      q.1.rest = feature.rest ∧
      (buildRecords feature ps h).2.get q.1.propsAddr =
        (h.get feature.propsAddr).set "image_path" q.2) ∧
    (∀ r ∈ (buildRecords feature ps h).1, r.rest = feature.rest ∧
      ∃ p, (buildRecords feature ps h).2.get r.propsAddr =
        (h.get feature.propsAddr).set "image_path" p) := by
  obtain ⟨news, hsplit, hlen, hle, hpres, hzip, hmem⟩ := buildRecords_go feature ps [] h hf
  rw [List.nil_append] at hsplit
  unfold buildRecords
  rw [hsplit]
  exact ⟨hlen, hpres, hzip, hmem⟩

/-- `slowPath` never surfaces an exception (the orchestrator's `except`
catches everything), leaves every pre-existing heap cell intact, and
every record it emits derives the source record's dict. -/
theorem slowPath_spec (feature : Feature) (out : String) (size : Nat) (cs : String)
    (o : Oracle) (sid folder iid : String) (w : World)
    (hf : feature.propsAddr < w.heap.next) :
    (∃ rs, (slowPath feature out size cs o sid folder iid w).1 = Except.ok rs) ∧
    (slowPath feature out size cs o sid folder iid w).2.heap.get feature.propsAddr =
      w.heap.get feature.propsAddr ∧
    (∀ rs, (slowPath feature out size cs o sid folder iid w).1 = Except.ok rs →
      ∀ r ∈ rs, r.rest = feature.rest ∧
        ∃ p, (slowPath feature out size cs o sid folder iid w).2.heap.get r.propsAddr =
          (w.heap.get feature.propsAddr).set "image_path" p) := by
  unfold slowPath
  rcases htu : o.thumbUrl with e | u
  · refine ⟨⟨[], rfl⟩, rfl, ?_⟩
    intro rs hrs r hr
    cases hrs
    exact absurd hr (List.not_mem_nil r)
  · rcases hfo : o.fetchOk with _ | _
    · refine ⟨⟨[], rfl⟩, rfl, ?_⟩
      intro rs hrs r hr
      cases hrs
      exact absurd hr (List.not_mem_nil r)
    · obtain ⟨hlen, hpres, hzip, hmem⟩ := buildRecords_spec feature
        ((cubemap_splitter o.cubemapRead size sid iid out cs o.writeFails).status.filterMap
          (fun s => s.bind (fun p => if p.isEmpty then none else some p))) w.heap hf
      refine ⟨⟨_, rfl⟩, hpres _ hf, ?_⟩
      intro rs hrs r hr
      cases hrs
      exact hmem r hr

/-- `orchestrate` (fast path or guarded slow path) preserves every
pre-existing heap cell and only emits records deriving the source dict. -/
theorem orchestrate_spec (feature : Feature) (out : String) (size : Nat) (cs : String)
    (o : Oracle) (sid folder : String) (w : World)
    (hf : feature.propsAddr < w.heap.next) :
    (orchestrate feature out size cs o sid folder w).2.heap.get feature.propsAddr =
      w.heap.get feature.propsAddr ∧
    (∀ rs, (orchestrate feature out size cs o sid folder w).1 = Except.ok rs →
      ∀ r ∈ rs, r.rest = feature.rest ∧
        ∃ p, (orchestrate feature out size cs o sid folder w).2.heap.get r.propsAddr =
          (w.heap.get feature.propsAddr).set "image_path" p) := by
  unfold orchestrate
  rcases hid : (w.heap.get feature.propsAddr).lookup "id" with _ | iid
  · refine ⟨rfl, ?_⟩
    intro rs hrs
    exact absurd hrs (by simp)
  · dsimp only
    by_cases hfast : ((pySplit cs).all fun i =>
        w.files.contains (tilePath out sid iid i)) = true
    · rw [if_pos hfast]
      obtain ⟨hlen, hpres, hzip, hmem⟩ := buildRecords_spec feature
        ((pySplit cs).map (fun i => tilePath out sid iid i)) w.heap hf
      refine ⟨hpres _ hf, ?_⟩
      intro rs hrs r hr
      cases hrs
      exact hmem r hr
    · rw [if_neg hfast]
      obtain ⟨h1, h2, h3⟩ := slowPath_spec feature out size cs o sid folder iid w hf
      exact ⟨h2, h3⟩

/-- `orchestrate` never surfaces an exception when the `id` property is
present. -/
theorem orchestrate_ok (feature : Feature) (out : String) (size : Nat) (cs : String)
    (o : Oracle) (sid folder : String) (w : World) (iid : String)
    (hid : (w.heap.get feature.propsAddr).lookup "id" = some iid) :
    ∃ rs, (orchestrate feature out size cs o sid folder w).1 = Except.ok rs := by
  unfold orchestrate
  rw [hid]
  dsimp only
  by_cases hfast : ((pySplit cs).all fun i =>
      w.files.contains (tilePath out sid iid i)) = true
  · rw [if_pos hfast]
    exact ⟨_, rfl⟩
  · rw [if_neg hfast]
    unfold slowPath
    rcases htu : o.thumbUrl with e | u
    · exact ⟨[], rfl⟩
    · rcases hfo : o.fetchOk with _ | _
      · exact ⟨[], rfl⟩
      · exact ⟨_, rfl⟩

/-- When the first network request raises, `orchestrate`'s slow path
returns the empty record list (the `except` catches the error and
`results` is still empty). -/
theorem orchestrate_network_error_empty (feature : Feature) (out : String) (size : Nat)
    (cs : String) (o : Oracle) (sid folder : String) (w : World) (iid : String) (e : String)
    (hid : (w.heap.get feature.propsAddr).lookup "id" = some iid)
    (he : o.thumbUrl = Except.error e)
    (hnotfast : ¬((pySplit cs).all (fun i =>
      w.files.contains (tilePath out sid iid i)) = true)) :
    (orchestrate feature out size cs o sid folder w).1 = Except.ok [] := by
  unfold orchestrate
  rw [hid]
  dsimp only
  rw [Bool.not_eq_true] at hnotfast
  rw [hnotfast]
  simp only [Bool.false_eq_true, if_false]
  unfold slowPath
  rw [he]

/-- C1: when a tile file already exists for every requested face, the
orchestrator takes the fast path: no network request, no external
process, no file or directory change — it returns exactly one derived
record per requested face, in order, whose `properties` dict is the
original dict plus `image_path` mapped to the pre-existing tile path. -/
theorem download_clip_img_fast_path (feature : Feature) (out : String) (size : Nat)
    (cs : String) (o : Oracle) (w : World) (sid iid : String)
    (hf : feature.propsAddr < w.heap.next)
    (hsid : (w.heap.get feature.propsAddr).lookup "sequence_id" = some sid)
    (hiid : (w.heap.get feature.propsAddr).lookup "id" = some iid)
    (hdir : w.dirs.contains (out ++ "/" ++ sid) = true)
    (hall : ((pySplit cs).all fun i => w.files.contains (tilePath out sid iid i)) = true) :
    (download_clip_img feature out size cs o w).2.net = w.net ∧
    (download_clip_img feature out size cs o w).2.procs = w.procs ∧
    (download_clip_img feature out size cs o w).2.files = w.files ∧
    (download_clip_img feature out size cs o w).2.dirs = w.dirs ∧
    ∃ rs, (download_clip_img feature out size cs o w).1 = Except.ok rs ∧
      rs.length = (pySplit cs).length ∧
      ∀ q ∈ rs.zip (pySplit cs),
        q.1.rest = feature.rest ∧
        (download_clip_img feature out size cs o w).2.heap.get q.1.propsAddr =
          (w.heap.get feature.propsAddr).set "image_path" (tilePath out sid iid q.2) := by
  have hred : download_clip_img feature out size cs o w =
      (Except.ok (buildRecords feature
          ((pySplit cs).map fun i => tilePath out sid iid i) w.heap).1,
        { w with heap := (buildRecords feature
          ((pySplit cs).map fun i => tilePath out sid iid i) w.heap).2 }) := by
    unfold download_clip_img
    rw [hsid]
    dsimp only
    rw [if_pos hdir]
    unfold orchestrate
    rw [hiid]
    dsimp only
    rw [if_pos hall]
  obtain ⟨hlen, hpres, hzip, hmem⟩ := buildRecords_spec feature
    ((pySplit cs).map fun i => tilePath out sid iid i) w.heap hf
  rw [hred]
  refine ⟨rfl, rfl, rfl, rfl, _, rfl, ?_, ?_⟩
  · rw [hlen, List.length_map]
  · intro q hq
    have hq' : (q.1, tilePath out sid iid q.2) ∈
        (buildRecords feature ((pySplit cs).map fun i => tilePath out sid iid i) w.heap).1.zip
          ((pySplit cs).map fun i => tilePath out sid iid i) := by
      rw [List.zip_map_right]
      exact List.mem_map_of_mem _ hq
    obtain ⟨hrest, hget⟩ := hzip _ hq'
    exact ⟨hrest, hget⟩

/-- A concrete feature properties dict, heap, feature, oracle and world
used to instantiate the orchestrator theorems. -/
def exProps : Props := [("sequence_id", "s1"), ("id", "77")]

def exHeap : Heap := { cells := [(0, exProps)], next := 1 }

def exFeature : Feature := { propsAddr := 0, rest := "point-geometry" }

def exOracle : Oracle :=
  { makedirsFails := false, thumbUrl := Except.ok "url", fetchOk := true,
    cubemapRead := none, writeFails := fun _ => false, removeFails := fun _ => false }

def exWorldFast : World :=
  { files := [tilePath "out" "s1" "77" "front", tilePath "out" "s1" "77" "back"],
    dirs := ["out" ++ "/" ++ "s1"], heap := exHeap, net := 3, procs := 2 }

/-- Witness for C1: a world already holding the front and back tiles of
image `77`. -/
theorem download_clip_img_fast_path_witness :
    (download_clip_img exFeature "out" 1000 "front,back" exOracle exWorldFast).2.net =
      exWorldFast.net ∧
    (download_clip_img exFeature "out" 1000 "front,back" exOracle exWorldFast).2.procs =
      exWorldFast.procs ∧
    (download_clip_img exFeature "out" 1000 "front,back" exOracle exWorldFast).2.files =
      exWorldFast.files ∧
    (download_clip_img exFeature "out" 1000 "front,back" exOracle exWorldFast).2.dirs =
      exWorldFast.dirs ∧
    ∃ rs, (download_clip_img exFeature "out" 1000 "front,back" exOracle exWorldFast).1 =
        Except.ok rs ∧
      rs.length = (pySplit "front,back").length ∧
      ∀ q ∈ rs.zip (pySplit "front,back"),
        q.1.rest = exFeature.rest ∧
        (download_clip_img exFeature "out" 1000 "front,back" exOracle
            exWorldFast).2.heap.get q.1.propsAddr =
          (exWorldFast.heap.get exFeature.propsAddr).set "image_path"
            (tilePath "out" "s1" "77" q.2) :=
  download_clip_img_fast_path exFeature "out" 1000 "front,back" exOracle exWorldFast
    "s1" "77" (by decide) (by decide) (by decide) (by decide) (by decide)

def exWorldNoDir : World :=
  { files := [], dirs := [], heap := exHeap, net := 0, procs := 0 }

def exOracleBadMkdir : Oracle :=
  { makedirsFails := true, thumbUrl := Except.ok "url", fetchOk := true,
    cubemapRead := none, writeFails := fun _ => false, removeFails := fun _ => false }

/-- Counterexample to C2 as stated: the directory-creation step
(utils_images.py lines 87–88) runs before the `try:` block, so when
`os.makedirs` raises, the exception escapes `download_clip_img` instead
of being caught and logged. -/
theorem download_clip_img_step1_uncaught :
    (download_clip_img exFeature "out" 1000 "front,back" exOracleBadMkdir exWorldNoDir).1 =
      Except.error "OSError: makedirs" := rfl

/-- C2 (amended): exceptions raised inside the `try:` block — the
fetch/convert/extract/cleanup of steps 3–6 — are caught inside
`download_clip_img`, which then returns normally, with zero output
records when the first network request raised; but an exception in
step 1 (property access or directory creation), which runs before the
`try:`, propagates out (see the counterexample). -/
theorem download_clip_img_try_errors_caught (feature : Feature) (out : String) (size : Nat)
    (cs : String) (o : Oracle) (w : World) (sid iid : String)
    (hsid : (w.heap.get feature.propsAddr).lookup "sequence_id" = some sid)
    (hiid : (w.heap.get feature.propsAddr).lookup "id" = some iid)
    (hdir : w.dirs.contains (out ++ "/" ++ sid) = true ∨ o.makedirsFails = false) :
    (∃ rs, (download_clip_img feature out size cs o w).1 = Except.ok rs) ∧
    (∀ e, o.thumbUrl = Except.error e →
      ¬(((pySplit cs).all fun i => w.files.contains (tilePath out sid iid i)) = true) →
      (download_clip_img feature out size cs o w).1 = Except.ok []) := by
  unfold download_clip_img
  rw [hsid]
  dsimp only
  by_cases hcont : w.dirs.contains (out ++ "/" ++ sid) = true
  · rw [if_pos hcont]
    exact ⟨orchestrate_ok feature out size cs o sid _ w iid hiid,
      fun e he hnf =>
        orchestrate_network_error_empty feature out size cs o sid _ w iid e hiid he hnf⟩
  · have hmk : o.makedirsFails = false := by
      rcases hdir with h | h
      · exact absurd h hcont
      · exact h
    rw [if_neg hcont, hmk]
    exact ⟨orchestrate_ok feature out size cs o sid _
        { w with dirs := (out ++ "/" ++ sid) :: w.dirs } iid hiid,
      fun e he hnf =>
        orchestrate_network_error_empty feature out size cs o sid _
          { w with dirs := (out ++ "/" ++ sid) :: w.dirs } iid e hiid he hnf⟩

def exOracleNetFail : Oracle :=
  { makedirsFails := false, thumbUrl := Except.error "ConnectionError", fetchOk := true,
    cubemapRead := none, writeFails := fun _ => false, removeFails := fun _ => false }

/-- Witness for the amended C2: with a failing metadata request and no
pre-existing tiles, `download_clip_img` still returns normally, with no
records. -/
theorem download_clip_img_try_errors_caught_witness :
    (∃ rs, (download_clip_img exFeature "out" 1000 "front,back" exOracleNetFail
        exWorldNoDir).1 = Except.ok rs) ∧
    (∀ e, exOracleNetFail.thumbUrl = Except.error e →
      ¬(((pySplit "front,back").all fun i =>
        exWorldNoDir.files.contains (tilePath "out" "s1" "77" i)) = true) →
      (download_clip_img exFeature "out" 1000 "front,back" exOracleNetFail
          exWorldNoDir).1 = Except.ok []) :=
  download_clip_img_try_errors_caught exFeature "out" 1000 "front,back" exOracleNetFail
    exWorldNoDir "s1" "77" (by decide) (by decide) (Or.inr rfl)

/-- C8: the orchestrator never mutates the input record's `properties`
dict — after `download_clip_img` returns, the dict at the input record's
address is unchanged — and every output record keeps the input's other
fields while its own fresh dict equals the input's dict with only an
`image_path` entry added. -/
theorem download_clip_img_no_mutation (feature : Feature) (out : String) (size : Nat)
    (cs : String) (o : Oracle) (w : World)
    (hf : feature.propsAddr < w.heap.next) :
    (download_clip_img feature out size cs o w).2.heap.get feature.propsAddr =
      w.heap.get feature.propsAddr ∧
    ∀ rs, (download_clip_img feature out size cs o w).1 = Except.ok rs →
      ∀ r ∈ rs, r.rest = feature.rest ∧
        ∃ p, (download_clip_img feature out size cs o w).2.heap.get r.propsAddr =
          (w.heap.get feature.propsAddr).set "image_path" p := by
  unfold download_clip_img
  rcases hsid : (w.heap.get feature.propsAddr).lookup "sequence_id" with _ | sid
  · refine ⟨rfl, ?_⟩
    intro rs hrs
    exact absurd hrs (by simp)
  · dsimp only
    by_cases hcont : w.dirs.contains (out ++ "/" ++ sid) = true
    · rw [if_pos hcont]
      exact orchestrate_spec feature out size cs o sid _ w hf
    · rw [if_neg hcont]
      by_cases hmk : o.makedirsFails = true
      · rw [if_pos hmk]
        refine ⟨rfl, ?_⟩
        intro rs hrs
        exact absurd hrs (by simp)
      · rw [if_neg hmk]
        exact orchestrate_spec feature out size cs o sid _
          { w with dirs := (out ++ "/" ++ sid) :: w.dirs } hf

/-- Witness for C8: a concrete fast-path run leaves the input record's
dict untouched. -/
theorem download_clip_img_no_mutation_witness :
    (download_clip_img exFeature "out" 1000 "front,back" exOracle exWorldFast).2.heap.get
      exFeature.propsAddr = exWorldFast.heap.get exFeature.propsAddr ∧
    ∀ rs, (download_clip_img exFeature "out" 1000 "front,back" exOracle exWorldFast).1 =
        Except.ok rs →
      ∀ r ∈ rs, r.rest = exFeature.rest ∧
        ∃ p, (download_clip_img exFeature "out" 1000 "front,back" exOracle
            exWorldFast).2.heap.get r.propsAddr =
          (exWorldFast.heap.get exFeature.propsAddr).set "image_path" p :=
  download_clip_img_no_mutation exFeature "out" 1000 "front,back" exOracle exWorldFast
    (by decide)

end Spherical2Images
